import Mathlib

/-!
Verification development for the SemanticDocumentParser pipeline.

The Python source under SemanticDocumentParser/ is shallowly embedded:
  * unstructured document elements become `Element` (a kind tag, a text and
    a metadata record);
  * external capabilities (the `unstructured` partitioner, the Python `json`
    module, the `re`/`textwrap` based tag stripping, the llama-index LLM chat
    and the semantic-splitting node parser) become fields of an `Env` record,
    since they are collaborators outside the repository;
  * Python in-place mutation becomes functional update (a stage returns the
    list it would have left behind);
  * the asyncio concurrency is sequentialized - every await point is a pure
    call, and `asyncio.gather` becomes `gatherE`, which propagates the first
    raised exception in task order, as the default gather does.
-/

namespace SemanticDocumentParser

/-- Kind discriminant for the unstructured element classes used by the code.
`other` stands for any further concrete element class; the pipeline only
inspects membership in the five named classes via isinstance checks. -/
inductive ElementKind where
  | title
  | narrativeText
  | listItem
  | table
  | pageBreak
  | other
deriving DecidableEq, Repr

/-- One link descriptor from `element.metadata.links`: a dict with keys
start_index, text and url, offsets into the original element text. -/
structure Link where
  start_index : Nat
  text : String
  url : String
deriving DecidableEq, Repr

/-- The metadata fields of an element that the pipeline reads or writes.
`text_as_html` models `metadata.text_as_html`, present on Table elements. -/
structure Metadata where
  links : Option (List Link)
  link_texts : Option (List String)
  link_urls : Option (List String)
  parent_id : Option String
  category_depth : Option Int
  filetype : Option String
  languages : Option (List String)
  page_number : Option Int
  text_as_html : String
deriving DecidableEq, Repr

/-- Default element metadata, matching a freshly constructed
`ElementMetadata` in which every optional field is unset. -/
def Metadata.default : Metadata :=
  ⟨none, none, none, none, none, none, none, none, ""⟩

/-- An unstructured document element: class tag, text and metadata. -/
structure Element where
  kind : ElementKind
  text : String
  metadata : Metadata
deriving DecidableEq, Repr

/-- Constructor corresponding to `Title(text=t, metadata=m)`. -/
def mkTitle (t : String) (m : Metadata) : Element := ⟨.title, t, m⟩

/-- Constructor corresponding to `NarrativeText(text=t, metadata=m)`. -/
def mkNarrativeText (t : String) (m : Metadata) : Element := ⟨.narrativeText, t, m⟩

/-- Constructor corresponding to `ListItem(text=t, metadata=m)`. -/
def mkListItem (t : String) (m : Metadata) : Element := ⟨.listItem, t, m⟩

/-- Constructor corresponding to `Table(text=t, metadata=m)`. -/
def mkTable (t : String) (m : Metadata) : Element := ⟨.table, t, m⟩

/-- Constructor corresponding to `PageBreak(text=t, metadata=m)`. -/
def mkPageBreak (t : String) (m : Metadata) : Element := ⟨.pageBreak, t, m⟩

/-- Python string slice `s[:n]` for a nonnegative bound (clamping). -/
def pyTake (s : String) (n : Nat) : String := ⟨s.data.take n⟩

/-- Python string slice `s[n:]` for a nonnegative bound (clamping). -/
def pyDrop (s : String) (n : Nat) : String := ⟨s.data.drop n⟩

/-! ## Metadata Normalizer (element_parsers/metadata_parser.py) -/

/-- The loop body of `_parse_element_urls`: walk the links left to right,
keeping `change_delta`, and splice `link_text + " (The link URL is <url>)"
over the span `[start_index + delta, start_index + delta + len(link_text))`
of the current text. -/
def parseElementUrlsLoop : List Link → Nat → String → String
  | [], _, text => text
  | link :: rest, change_delta, text =>
    let start_index := link.start_index + change_delta
    let end_index := start_index + link.text.length
    let new_text := " (The link URL is " ++ link.url ++ ")"
    parseElementUrlsLoop rest (change_delta + new_text.length)
      (pyTake text start_index ++ link.text ++ new_text ++ pyDrop text end_index)

/-- Embedding of `_parse_element_urls`: rewrite the element text by the link
loop, then clear `link_texts`, `links` and `link_urls`. The Python function
mutates the element in place; the embedding returns the updated element. -/
def parse_element_urls (e : Element) : Element :=
  { e with
    text := parseElementUrlsLoop (e.metadata.links.getD []) 0 e.text,
    metadata := { e.metadata with link_texts := none, links := none, link_urls := none } }

/-- Python truthiness of `element.metadata.links` (None and [] are falsy). -/
def linksTruthy : Option (List Link) → Bool
  | some (_ :: _) => true
  | _ => false

/-- The unconditional metadata scrub done by `metadata_parser` on every
element: parent_id, category_depth, filetype, languages, page_number. -/
def scrubMetadata (m : Metadata) : Metadata :=
  { m with
    parent_id := none, category_depth := none,
    filetype := none, languages := none, page_number := none }

/-- Embedding of `metadata_parser` (source name; the Lean name drops the suffix): per element, inline the links whenever
`metadata.links` is truthy, then scrub the noisy metadata fields. In Python
this is an in-place pass over the list; here it returns the updated list. -/
def metadata_parse (elements : List Element) : List Element :=
  elements.map fun e =>
    let e1 := if linksTruthy e.metadata.links then parse_element_urls e else e
    { e1 with metadata := scrubMetadata e1.metadata }

/-! ## List Consolidator (element_parsers/list_parser.py) -/

/-- Embedding of `_list_group_parser` (source name; the Lean name drops the suffix): from a run of list items and the
optional header node, build the aggregate NarrativeText (default metadata)
followed by one NarrativeText per item (inheriting the item metadata). -/
def list_group_parse (elements : List Element) (header_node : Option Element) :
    List Element :=
  let header_text := match header_node with
    | some h => h.text ++ "\n\n"
    | none => ""
  let footer_text := " There were " ++ toString elements.length ++ " items."
  mkNarrativeText
      (header_text
        ++ String.intercalate "\n" (elements.map fun e => "- " ++ e.text)
        ++ footer_text)
      Metadata.default
    :: elements.enum.map fun p =>
        mkNarrativeText
          (header_text ++ "List Item #" ++ toString (p.1 + 1) ++ "): " ++ p.2.text)
          p.2.metadata

/-- Embedding of `_iterate_without_page_breaks`: drop PageBreak elements. -/
def iterate_without_page_breaks (elements : List Element) : List Element :=
  elements.filter fun e => !(e.kind == .pageBreak)

/-- Truth of `isinstance(last_node, NarrativeText) or isinstance(last_node, Title)`
for the optional `last_node` tracked by the list parser loop. -/
def isTextOrTitle : Option Element → Bool
  | some e => e.kind == .narrativeText || e.kind == .title
  | none => false

/-- Truth of `isinstance(last_node, ListItem)` for the optional `last_node`. -/
def isListItemOpt : Option Element → Bool
  | some e => e.kind == .listItem
  | none => false

/-- The main loop of `list_parser` (source name), with the mutable state
(header_node, list_group, last_node) made explicit. On a ListItem the item
joins the current group (and a NarrativeText/Title last node becomes the
header); on anything else the element is emitted and, when the previous
element was a ListItem, the finished group is expanded after it. Note the
loop emits nothing for a group still open when the input ends. -/
def listParserAux :
    Option Element → List Element → Option Element → List Element → List Element
  | _, _, _, [] => []
  | header_node, list_group, last_node, e :: rest =>
    if e.kind == .listItem then
      listParserAux
        (if isTextOrTitle last_node then last_node else header_node)
        (list_group ++ [e]) (some e) rest
    else
      if isListItemOpt last_node then
        e :: (list_group_parse list_group header_node
              ++ listParserAux none [] (some e) rest)
      else
        e :: listParserAux header_node list_group (some e) rest

/-- Embedding of `list_parser` (source name; the Lean name drops the suffix): run the loop over the page-break-free view
of the input. -/
def list_parse (elements : List Element) : List Element :=
  listParserAux none [] none (iterate_without_page_breaks elements)

/-! ## Semantic Grouper/Splitter (element_parsers/semantic_splitter.py) -/

/-- Embedding of the `ElementGroup` TypedDict. -/
structure ElementGroup where
  title_node : Element
  nodes : List Element
deriving DecidableEq, Repr

/-- The loop of `_create_element_groups`, with `current_group` explicit: a
Title closes the open group (if any) and opens a new one; any other element
joins the open group, or is discarded when no group is open yet. -/
def createElementGroupsAux : Option ElementGroup → List Element → List ElementGroup
  | none, [] => []
  | some g, [] => [g]
  | current, e :: rest =>
    if e.kind == .title then
      match current with
      | none => createElementGroupsAux (some ⟨e, []⟩) rest
      | some g => g :: createElementGroupsAux (some ⟨e, []⟩) rest
    else
      match current with
      | none => createElementGroupsAux none rest
      | some g => createElementGroupsAux (some ⟨g.title_node, g.nodes ++ [e]⟩) rest

/-- Embedding of `_create_element_groups`. -/
def create_element_groups (elements : List Element) : List ElementGroup :=
  createElementGroupsAux none elements

/-- A JSON value, as decoded by `json.loads`. Numbers are modelled as
integers; no claim depends on fractional numerics. -/
inductive JValue where
  | jnull
  | jbool (b : Bool)
  | jnum (n : Int)
  | jstr (s : String)
  | jarr (xs : List JValue)
  | jobj (fields : List (String × JValue))

/-- The Python exceptions the embedded pipeline can raise. A raised
`JSONDecodeError` never escapes `_parse_llm_json_response` (it is caught
there), so only the others appear in results. -/
inductive PyErr where
  | jsonDecodeError
  | indexError
  | typeError
  | keyError
deriving DecidableEq, Repr

/-- The external collaborators of the pipeline, modelled as pure functions:

* `partitionResult` - the element list returned by `partition(file=document)`;
* `clock` - the value of `int(time.time())` at the n-th sampling point;
* `splitText` - `node_parser.build_semantic_nodes_from_documents` on a
  one-document input, as the list of sub-node texts for the given text;
* `jsonLoads` - `json.loads`; `none` models a raised `JSONDecodeError`;
* `stripHtml` - `textwrap.dedent(re.sub(r"<[^<]+?>", "", html))`;
* `unitsReply` - the LLM response content to `SemanticUnitsTemplate`
  followed by the user message carrying the given table HTML;
* `summaryReply` - the LLM response content to `SemanticSummaryTemplate`
  followed by the user message carrying the given table HTML. -/
structure Env where
  partitionResult : List Element
  clock : Nat → Int
  splitText : String → List String
  jsonLoads : String → Option JValue
  stripHtml : String → String
  unitsReply : String → String
  summaryReply : String → String

/-- Embedding of `_semantic_split_node`: split the NarrativeText via the
splitting capability and re-materialize each sub-text as a NarrativeText
reading `<title text>\n<sub-node text>`, with the original metadata. -/
def semantic_split_node (env : Env) (title_node : Element) (node : Element) :
    List Element :=
  (env.splitText node.text).map fun s =>
    mkNarrativeText (title_node.text ++ "\n" ++ s) node.metadata

/-- Embedding of `_semantic_split_element_group`: non-NarrativeText members
pass through; each NarrativeText is replaced by its splits. -/
def semantic_split_element_group (env : Env) (group : ElementGroup) :
    List Element :=
  group.nodes.flatMap fun node =>
    if !(node.kind == .narrativeText) then [node]
    else semantic_split_node env group.title_node node

/-- The `nodes` list that the body of `semantic_splitter` accumulates:
the concatenation, in group order, of every processed group. -/
def semanticSplitterNodes (env : Env) (elements : List Element) : List Element :=
  (create_element_groups elements).flatMap (semantic_split_element_group env)

/-- Embedding of `semantic_splitter`. The source builds `nodes` group by
group and then executes `return elements`, so the accumulated split
sequence is discarded and the original input list is returned. -/
def semantic_splitter (env : Env) (elements : List Element) : List Element :=
  let _nodes := semanticSplitterNodes env elements
  elements

/-! ## Table Semanticizer (element_parsers/semantic_tables.py) -/

/-- Python subscripting `v[0]` on a decoded JSON value: the head of a
nonempty array (IndexError when empty), the first character of a nonempty
string (IndexError when empty), KeyError for an object (JSON object keys
are strings, so the integer key 0 is absent), TypeError otherwise. -/
def pyIndex0 : JValue → Except PyErr JValue
  | .jarr [] => .error .indexError
  | .jarr (x :: _) => .ok x
  | .jstr s =>
    match s.data with
    | [] => .error .indexError
    | c :: _ => .ok (.jstr ⟨[c]⟩)
  | .jobj _ => .error .keyError
  | _ => .error .typeError

/-- Truth of `isinstance(x, str)` for a decoded JSON value. -/
def isStr : JValue → Bool
  | .jstr _ => true
  | _ => false

/-- Python iteration over the value that `_parse_llm_json_response` returns
on success: an array yields its members, a string yields its characters as
one-character strings. (On success the value is a nonempty array or a
nonempty string, since `v[0]` succeeded; the catch-all is unreachable.) -/
def pyIterate : JValue → List JValue
  | .jarr xs => xs
  | .jstr s => s.data.map fun c => .jstr ⟨[c]⟩
  | _ => []

/-- Python `str(x)` applied to a decoded JSON value inside an f-string.
Container renderings are abbreviated; no pipeline claim inspects the
rendering of a non-string JSON member. -/
def pyStr : JValue → String
  | .jstr s => s
  | .jnum n => toString n
  | .jbool true => "True"
  | .jbool false => "False"
  | .jnull => "None"
  | .jarr _ => "[...]"
  | .jobj _ => "\x7b...\x7d"

/-- The `logging.error` message written by `_parse_llm_json_response` on a
caught `JSONDecodeError`; it carries the raw response content. (The
appended `traceback.format_exc()` text is runtime-environment prose and is
not modelled.) -/
def unitsLogMsg (content : String) : String :=
  "Failed to parse a table! Got invalid reply: " ++ content ++ "\n"

/-- Embedding of `_parse_llm_json_response` on the raw response content.
`json.loads` failure raises `JSONDecodeError`, which the handler catches,
logs and turns into `[]`; a successful decode is subscripted at 0 (whose
IndexError/TypeError/KeyError escape uncaught), and a non-string first
member raises a `JSONDecodeError` that the same handler catches and logs.
The pair carries the value the caller will iterate plus the log lines. -/
def parse_llm_json_response (env : Env) (content : String) :
    Except PyErr (List JValue × List String) :=
  match env.jsonLoads content with
  | none => .ok ([], [unitsLogMsg content])
  | some v =>
    match pyIndex0 v with
    | .error e => .error e
    | .ok x =>
      if isStr x then .ok (pyIterate v, [])
      else .ok ([], [unitsLogMsg content])

/-- Embedding of `_semantic_summarize_table`: one NarrativeText holding
`<previous element text>\n` (empty when there is no previous element)
followed by the raw summary reply, with the table metadata attached. -/
def semantic_summarize_table (env : Env) (element : Element)
    (previous_element : Option Element) : Element :=
  let element_header := match previous_element with
    | some p => p.text ++ "\n"
    | none => ""
  mkNarrativeText (element_header ++ env.summaryReply element.metadata.text_as_html)
    element.metadata

/-- Embedding of `_semantic_parse_table`: parse the units reply and turn
each returned member into a NarrativeText reading
`<previous element text>\n\n` + `List Item <1-based index>: <member>`,
with the table metadata attached. Parse-time exceptions propagate. -/
def semantic_parse_table (env : Env) (element : Element)
    (previous_element : Option Element) :
    Except PyErr (List Element × List String) :=
  match parse_llm_json_response env (env.unitsReply element.metadata.text_as_html) with
  | .error e => .error e
  | .ok (element_texts, logs) =>
    let element_header := match previous_element with
      | some p => p.text ++ "\n\n"
      | none => ""
    .ok (element_texts.enum.map fun p =>
          mkNarrativeText
            (element_header ++ "List Item " ++ toString (p.1 + 1) ++ ": " ++ pyStr p.2)
            element.metadata,
        logs)

/-- The raw-rendering element built first by `_semantic_ingest_table`:
the tag-stripped, dedented table HTML as a NarrativeText. -/
def rawTableElem (env : Env) (element : Element) : Element :=
  mkNarrativeText (env.stripHtml element.metadata.text_as_html) element.metadata

/-- Embedding of `_semantic_ingest_table`: the raw rendering, then the unit
elements, then the summary element. The two LLM derivations are gathered;
an exception from the units derivation propagates out of the gather. -/
def semantic_ingest_table (env : Env) (element : Element)
    (previous_element : Option Element) :
    Except PyErr (List Element × List String) :=
  match semantic_parse_table env element previous_element with
  | .error e => .error e
  | .ok (units, logs) =>
    .ok (rawTableElem env element
          :: units ++ [semantic_summarize_table env element previous_element],
        logs)

/-- Model of `asyncio.gather` over already-elaborated task results: all
succeed, or the first exception in task order propagates. -/
def gatherE {α : Type} : List (Except PyErr α) → Except PyErr (List α)
  | [] => .ok []
  | t :: ts =>
    match t with
    | .error e => .error e
    | .ok a =>
      match gatherE ts with
      | .error e => .error e
      | .ok rest => .ok (a :: rest)

/-- The anchor choice of the `semantic_tables` loop for the table at
position `idx`: the immediately preceding element of the original input,
kept only when it is a NarrativeText or a Title. -/
def tablePrev (elements : List Element) (idx : Nat) : Option Element :=
  if idx > 0 then
    match elements.get? (idx - 1) with
    | some p => if p.kind == .narrativeText || p.kind == .title then some p else none
    | none => none
  else none

/-- The ingestion tasks created by the `semantic_tables` loop, one per
Table element, in document order. -/
def tableTasks (env : Env) (elements : List Element) :
    List (Except PyErr (List Element × List String)) :=
  elements.enum.filterMap fun p =>
    if p.2.kind == .table then
      some (semantic_ingest_table env p.2 (tablePrev elements p.1))
    else none

/-- Embedding of `semantic_tables`. The loop appends every non-Table
element to `nodes` and creates one ingestion task per Table; after the
gather, each task result list is extended onto `nodes`. The expansions
therefore land after all pass-through elements, in table order. -/
def semantic_tables (env : Env) (elements : List Element) :
    Except PyErr (List Element × List String) :=
  let nodes := elements.filter fun e => !(e.kind == .table)
  match gatherE (tableTasks env elements) with
  | .error e => .error e
  | .ok results =>
    .ok (nodes ++ results.flatMap Prod.fst, results.flatMap Prod.snd)

/-! ## Pipeline Orchestrator (parser.py) -/

/-- Embedding of `SemanticDocumentParserStats`. -/
structure Stats where
  element_parse_time : Option Int
  metadata_parse_time : Option Int
  paragraph_parse_time : Option Int
  list_parse_time : Option Int
  table_parse_time : Option Int
deriving DecidableEq, Repr

/-- Embedding of `SemanticDocumentParser.aparse`: partition the document
(already elaborated into `env.partitionResult`), short-circuit on an empty
element list with only the partition duration recorded, and otherwise run
the four stages in order, sampling `int(time.time())` around each stage. -/
def aparse (env : Env) : Except PyErr (List Element × Stats) :=
  let t1_start := env.clock 0
  let elements := env.partitionResult
  let t1_end := env.clock 1
  if elements.length < 1 then
    .ok ([], ⟨some (t1_end - t1_start), none, none, none, none⟩)
  else
    let t2_start := env.clock 2
    let elements2 := metadata_parse elements
    let t2_end := env.clock 3
    let t3_start := env.clock 4
    let elements3 := semantic_splitter env elements2
    let t3_end := env.clock 5
    let t4_start := env.clock 6
    let elements4 := list_parse elements3
    let t4_end := env.clock 7
    let t5_start := env.clock 8
    match semantic_tables env elements4 with
    | .error e => .error e
    | .ok (nodes, _) =>
      let t5_end := env.clock 9
      .ok (nodes,
        ⟨some (t1_end - t1_start), some (t2_end - t2_start),
         some (t3_end - t3_start), some (t4_end - t4_start),
         some (t5_end - t5_start)⟩)


/-! ## Concrete fixtures -/

/-- A base environment with inert collaborators, specialized per claim. -/
def baseEnv : Env where
  partitionResult := []
  clock := fun _ => 0
  splitText := fun s => [s]
  jsonLoads := fun _ => none
  stripHtml := fun s => s
  unitsReply := fun _ => ""
  summaryReply := fun _ => ""

/-- Input for the splitter defect: a Title followed by one NarrativeText. -/
def elemsSplitC1 : List Element :=
  [mkTitle "T" Metadata.default, mkNarrativeText "x" Metadata.default]

/-- Input with a NarrativeText in front of the first Title. -/
def elemsSplitC4 : List Element :=
  [mkNarrativeText "pre" Metadata.default, mkTitle "T" Metadata.default]

/-! ## Theorems -/

/-- C1: the Semantic Grouper/Splitter must return the newly split sequence,
not the original input. The code computes the split sequence into a local
list and then returns the input, so on every input the returned value is
the original sequence; at the concrete input below the discarded split
sequence differs from the input, so the returned value is not the split
sequence. -/
theorem c1_semantic_splitter_returns_original_input :
    (∀ (env : Env) (elements : List Element), semantic_splitter env elements = elements)
    ∧ semanticSplitterNodes baseEnv elemsSplitC1
        = [mkNarrativeText ("T" ++ "\n" ++ "x") Metadata.default]
    ∧ semanticSplitterNodes baseEnv elemsSplitC1 ≠ elemsSplitC1 :=
  ⟨fun _ _ => rfl, by decide, by decide⟩

/-- C4: elements preceding the first Title are dropped from the element
groups (and hence from the split sequence the stage builds), but because
the stage returns the original input, they are still present in the
returned output sequence, contrary to the claim. -/
theorem c4_pre_title_elements_survive_in_returned_output :
    create_element_groups elemsSplitC4 = [⟨mkTitle "T" Metadata.default, []⟩]
    ∧ semanticSplitterNodes baseEnv elemsSplitC4 = []
    ∧ mkNarrativeText "pre" Metadata.default ∈ semantic_splitter baseEnv elemsSplitC4 :=
  ⟨by decide, by decide, by decide⟩

/-- C3: a maximal run of ListItem elements at the very end of the input is
never flushed - the loop only expands a finished group when a following
non-list element arrives, and the final return drops an open group.
On `[Title "Intro", ListItem "A", ListItem "B"]` the output is just
`[Title "Intro"]`; appending a trailing NarrativeText makes the same run
flush (aggregate plus two item elements). -/
theorem c3_trailing_list_run_dropped :
    list_parse
        [mkTitle "Intro" Metadata.default,
         mkListItem "A" Metadata.default,
         mkListItem "B" Metadata.default]
      = [mkTitle "Intro" Metadata.default]
    ∧ list_parse
        [mkTitle "Intro" Metadata.default,
         mkListItem "A" Metadata.default,
         mkListItem "B" Metadata.default,
         mkNarrativeText "End" Metadata.default]
      = [mkTitle "Intro" Metadata.default,
         mkNarrativeText "End" Metadata.default,
         mkNarrativeText "Intro\n\n- A\n- B There were 2 items." Metadata.default,
         mkNarrativeText "Intro\n\nList Item #1): A" Metadata.default,
         mkNarrativeText "Intro\n\nList Item #2): B" Metadata.default] :=
  ⟨by decide, by decide⟩

/-- Metadata fixture carrying one link with start_index 5, the offset used
by the claim. In "Click here now" the substring "here" starts at offset 6,
so offset 5 points at the space before it. -/
def linkMetaC6 : Metadata :=
  { Metadata.default with links := some [⟨5, "here", "http://x"⟩] }

/-- Metadata fixture with the same link at its true offset 6. -/
def linkMetaC6fix : Metadata :=
  { Metadata.default with links := some [⟨6, "here", "http://x"⟩] }

/-- Metadata fixture carrying two links, exercising offset rebasing. -/
def linkMetaC6b : Metadata :=
  { Metadata.default with links := some [⟨0, "A", "u"⟩, ⟨2, "B", "v"⟩] }

/-- C6 counterexample: with the link descriptor of the claim,
start_index 5 on text "Click here now", the Metadata Normalizer replaces
the character span [5, 9) - the space and "her" - so the rewritten text is
"Clickhere (The link URL is http://x)e now", not the text the claim
states. -/
theorem c6_counterexample_start_index_five :
    metadata_parse [⟨.narrativeText, "Click here now", linkMetaC6⟩]
      = [mkNarrativeText "Clickhere (The link URL is http://x)e now" Metadata.default]
    ∧ metadata_parse [⟨.narrativeText, "Click here now", linkMetaC6⟩]
      ≠ [mkNarrativeText "Click here (The link URL is http://x) now" Metadata.default] :=
  ⟨by decide, by decide⟩

/-- C6 amended: with the link at its actual offset (start_index 6 for
"here" in "Click here now") the Metadata Normalizer rewrites the text to
exactly "Click here (The link URL is http://x) now"; with two links the
second replacement lands after the first insertion because its
original-text offset is rebased by the running insertion-length delta. -/
theorem c6_metadata_normalizer_inlines_links :
    metadata_parse [⟨.narrativeText, "Click here now", linkMetaC6fix⟩]
      = [mkNarrativeText "Click here (The link URL is http://x) now" Metadata.default]
    ∧ metadata_parse [⟨.narrativeText, "A B C", linkMetaC6b⟩]
      = [mkNarrativeText "A (The link URL is u) B (The link URL is v) C"
          Metadata.default] :=
  ⟨by decide, by decide⟩

/-- Helper for C9: on input without list items the main loop copies every
element through, as long as the tracked last node is not a list item. -/
theorem listParserAux_no_list_items (es : List Element)
    (h : ∀ e ∈ es, e.kind ≠ ElementKind.listItem) :
    ∀ (hn : Option Element) (lg : List Element) (ln : Option Element),
      isListItemOpt ln = false → listParserAux hn lg ln es = es := by
  induction es with
  | nil => intro hn lg ln _; rfl
  | cons e rest ih =>
    intro hn lg ln hln
    have he : e.kind ≠ ElementKind.listItem := h e (by simp)
    have hb : (e.kind == ElementKind.listItem) = false := by
      simpa using he
    have hrest : ∀ e2 ∈ rest, e2.kind ≠ ElementKind.listItem := by
      intro e2 he2; exact h e2 (by simp [he2])
    have hlnext : isListItemOpt (some e) = false := by
      simpa [isListItemOpt] using hb
    simp only [listParserAux, hb, hln, Bool.false_eq_true, if_false]
    rw [ih hrest hn lg (some e) hlnext]

/-- C9: with no ListItem elements in the input, the List Consolidator is
the identity up to page-break removal. -/
theorem c9_list_parser_identity_without_list_items (elements : List Element)
    (h : ∀ e ∈ elements, e.kind ≠ ElementKind.listItem) :
    list_parse elements = iterate_without_page_breaks elements := by
  unfold list_parse
  exact listParserAux_no_list_items _
    (fun e he => h e (List.mem_filter.mp he).1) none [] none rfl

/-- Fixture for the C9 witness: a title, a page break and a paragraph. -/
def elemsC9 : List Element :=
  [mkTitle "T" Metadata.default,
   mkPageBreak "" Metadata.default,
   mkNarrativeText "x" Metadata.default]

/-- Witness for C9 at a concrete list-item-free input. -/
theorem c9_witness :
    (∀ e ∈ elemsC9, e.kind ≠ ElementKind.listItem)
    ∧ list_parse elemsC9 = iterate_without_page_breaks elemsC9 :=
  ⟨by decide, c9_list_parser_identity_without_list_items elemsC9 (by decide)⟩

/-- Fixture header for the C7 counterexample. -/
def hdrC7 : Element := mkTitle "Intro" Metadata.default

/-- Fixture run of one list item for the C7 counterexample. -/
def itemsC7 : List Element := [mkListItem "A" Metadata.default]

/-- C7 counterexample: the per-item element of a flushed run separates the
header text from the item label with a blank line ("\n\n"), not the single
"\n" the claim states: on header "Intro" and item "A" the emitted text is
"Intro\n\nList Item #1): A". -/
theorem c7_counterexample_item_header_separator :
    (list_group_parse itemsC7 (some hdrC7))[1]?
      = some (mkNarrativeText "Intro\n\nList Item #1): A" Metadata.default)
    ∧ (list_group_parse itemsC7 (some hdrC7))[1]?
      ≠ some (mkNarrativeText "Intro\nList Item #1): A" Metadata.default) :=
  ⟨by decide, by decide⟩

/-- C7 amended: for a flushed run of N list items with header element H,
the first output is the aggregate NarrativeText
`H.text ++ "\n\n" ++ <the "- item" lines newline-joined> ++ " There were N items."`
(with fresh default metadata), there are exactly N further outputs, and the
(i+1)-th output is the NarrativeText
`H.text ++ "\n\n" ++ "List Item #(i+1)): " ++ <item text>` carrying that
item's metadata. This is the claim with the per-item separator corrected
from "\n" to "\n\n". -/
theorem c7_list_group_parse_emits_aggregate_and_items
    (H : Element) (items : List Element) :
    (list_group_parse items (some H)).head?
      = some (mkNarrativeText
          ((H.text ++ "\n\n")
            ++ String.intercalate "\n" (items.map fun e => "- " ++ e.text)
            ++ (" There were " ++ toString items.length ++ " items."))
          Metadata.default)
    ∧ (list_group_parse items (some H)).length = items.length + 1
    ∧ ∀ i (hi : i < items.length),
        (list_group_parse items (some H))[i + 1]?
          = some (mkNarrativeText
              ((H.text ++ "\n\n")
                ++ "List Item #" ++ toString (i + 1) ++ "): " ++ items[i].text)
              items[i].metadata) := by
  refine ⟨rfl, ?_, ?_⟩
  · simp [list_group_parse, List.enum_length]
  · intro i hi
    simp [list_group_parse, List.getElem?_enum, List.getElem?_eq_getElem hi,
      Option.map_map, Function.comp]

/-- Witness for C7 at a concrete header, run and index. -/
theorem c7_witness :
    (list_group_parse itemsC7 (some hdrC7)).length = itemsC7.length + 1
    ∧ (list_group_parse itemsC7 (some hdrC7))[0 + 1]?
      = some (mkNarrativeText
          ((hdrC7.text ++ "\n\n")
            ++ "List Item #" ++ toString (0 + 1) ++ "): " ++ itemsC7[0].text)
          itemsC7[0].metadata) :=
  ⟨(c7_list_group_parse_emits_aggregate_and_items hdrC7 itemsC7).2.1,
   (c7_list_group_parse_emits_aggregate_and_items hdrC7 itemsC7).2.2 0 (by decide)⟩

/-- C8: when the external partitioner returns no elements, `aparse`
short-circuits: the result is the empty element list paired with a stats
record whose `element_parse_time` is the partition duration and whose four
stage durations are all `None`. The equality holds for every environment
with an empty partition result, whatever the stage collaborators would do,
so no pipeline stage runs. -/
theorem c8_aparse_empty_partition_short_circuits (env : Env)
    (h : env.partitionResult = []) :
    aparse env
      = .ok ([], ⟨some (env.clock 1 - env.clock 0), none, none, none, none⟩) := by
  simp [aparse, h]

/-- Witness for C8 at a concrete environment with an empty partition. -/
theorem c8_witness :
    baseEnv.partitionResult = []
    ∧ aparse baseEnv
      = .ok ([], ⟨some (baseEnv.clock 1 - baseEnv.clock 0), none, none, none, none⟩) :=
  ⟨rfl, c8_aparse_empty_partition_short_circuits baseEnv rfl⟩

/-- The two recoverable failure shapes of the unit-extraction reply: the
content is not valid JSON (json.loads raises), or the decoded value has a
first element and it is not a string. -/
def parseFailure (env : Env) (content : String) : Prop :=
  env.jsonLoads content = none
  ∨ ∃ v x, env.jsonLoads content = some v ∧ pyIndex0 v = .ok x ∧ isStr x = false

/-- C5: when the unit-extraction reply for a table fails to parse (invalid
JSON, or a non-string first element), the failure is logged with the raw
response content and the table degrades to exactly one raw-rendering
element followed by one summary element and zero unit elements - the
ingestion returns normally, so no exception escapes for that table. -/
theorem c5_table_parse_failure_degrades (env : Env) (element : Element)
    (previous_element : Option Element)
    (h : parseFailure env (env.unitsReply element.metadata.text_as_html)) :
    semantic_ingest_table env element previous_element
      = .ok ([rawTableElem env element,
              semantic_summarize_table env element previous_element],
             [unitsLogMsg (env.unitsReply element.metadata.text_as_html)]) := by
  rcases h with h | ⟨v, x, hv, hx, hs⟩
  · simp [semantic_ingest_table, semantic_parse_table, parse_llm_json_response, h]
  · simp [semantic_ingest_table, semantic_parse_table, parse_llm_json_response,
      hv, hx, hs]

/-- Environment for the C5 witness: the units reply "oops" is not valid
JSON, the tag stripper yields "RAW" and the summary reply is "SUM". -/
def envC5 : Env :=
  { baseEnv with
    jsonLoads := fun _ => none,
    unitsReply := fun _ => "oops",
    stripHtml := fun _ => "RAW",
    summaryReply := fun _ => "SUM" }

/-- Table fixture for the C5 witness. -/
def tblC5 : Element :=
  mkTable "t" { Metadata.default with text_as_html := "<table></table>" }

/-- Witness for C5 at a concrete table whose units reply is invalid JSON. -/
theorem c5_witness :
    parseFailure envC5 (envC5.unitsReply tblC5.metadata.text_as_html)
    ∧ semantic_ingest_table envC5 tblC5 none
      = .ok ([rawTableElem envC5 tblC5, semantic_summarize_table envC5 tblC5 none],
             [unitsLogMsg (envC5.unitsReply tblC5.metadata.text_as_html)]) :=
  ⟨Or.inl rfl, c5_table_parse_failure_degrades envC5 tblC5 none (Or.inl rfl)⟩

/-- Helper for C10: `metadata_parse` never changes the kind or the
`text_as_html` metadata of an element; on a one-element list it yields one
element with both preserved. -/
theorem metadata_parser_singleton_preserves (e : Element) :
    ∃ e2, metadata_parse [e] = [e2]
      ∧ e2.kind = e.kind
      ∧ e2.metadata.text_as_html = e.metadata.text_as_html := by
  refine ⟨_, rfl, ?_, ?_⟩ <;>
    simp [metadata_parse, parse_element_urls, scrubMetadata] <;>
    split <;> rfl

/-- C10: a units reply that decodes to the empty JSON array makes the
subscript `element_texts[0]` raise an IndexError that the JSONDecodeError
handler does not catch: `_parse_llm_json_response` raises, the ingestion
and the whole table stage raise, and `aparse` on a document partitioned
into that single table aborts with the same IndexError instead of
degrading to zero units. -/
theorem c10_empty_json_array_aborts_aparse (env : Env) (tbl : Element)
    (hk : tbl.kind = ElementKind.table)
    (hj : env.jsonLoads (env.unitsReply tbl.metadata.text_as_html)
            = some (JValue.jarr []))
    (hp : env.partitionResult = [tbl]) :
    parse_llm_json_response env (env.unitsReply tbl.metadata.text_as_html)
        = .error .indexError
    ∧ semantic_ingest_table env tbl none = .error .indexError
    ∧ semantic_tables env [tbl] = .error .indexError
    ∧ aparse env = .error .indexError := by
  have hparse : parse_llm_json_response env (env.unitsReply tbl.metadata.text_as_html)
      = .error .indexError := by
    simp [parse_llm_json_response, hj, pyIndex0]
  have hingest : ∀ prev, semantic_ingest_table env tbl prev = .error .indexError := by
    intro prev
    simp [semantic_ingest_table, semantic_parse_table, hparse]
  have htables : semantic_tables env [tbl] = .error .indexError := by
    simp [semantic_tables, tableTasks, List.enum, List.enumFrom, hk,
      tablePrev, hingest, gatherE]
  refine ⟨hparse, hingest none, htables, ?_⟩
  obtain ⟨tbl2, hm, hk2, hh2⟩ := metadata_parser_singleton_preserves tbl
  have hparse2 : parse_llm_json_response env (env.unitsReply tbl2.metadata.text_as_html)
      = .error .indexError := by rw [hh2]; exact hparse
  have hingest2 : semantic_ingest_table env tbl2 none = .error .indexError := by
    simp [semantic_ingest_table, semantic_parse_table, hparse2]
  have hk2t : tbl2.kind = ElementKind.table := by rw [hk2, hk]
  have hlist : list_parse [tbl2] = [tbl2] := by
    simp [list_parse, iterate_without_page_breaks, listParserAux, isListItemOpt, hk2t]
  have htables2 : semantic_tables env [tbl2] = .error .indexError := by
    simp [semantic_tables, tableTasks, List.enum, List.enumFrom, hk2t,
      tablePrev, hingest2, gatherE]
  simp [aparse, hp, hm, semantic_splitter, hlist, htables2]

/-- Environment for the C10 witness: the units reply decodes to `[]` and
the partitioner returns a single table. -/
def envC10 : Env :=
  { baseEnv with
    partitionResult := [mkTable "tab" { Metadata.default with text_as_html := "<h>" }],
    jsonLoads := fun _ => some (JValue.jarr []),
    unitsReply := fun _ => "[]" }

/-- Table fixture for the C10 witness. -/
def tblC10 : Element :=
  mkTable "tab" { Metadata.default with text_as_html := "<h>" }

/-- Witness for C10 at a concrete single-table document whose units reply
decodes to the empty JSON array. -/
theorem c10_witness :
    parse_llm_json_response envC10 (envC10.unitsReply tblC10.metadata.text_as_html)
        = .error .indexError
    ∧ semantic_ingest_table envC10 tblC10 none = .error .indexError
    ∧ semantic_tables envC10 [tblC10] = .error .indexError
    ∧ aparse envC10 = .error .indexError :=
  c10_empty_json_array_aborts_aparse envC10 tblC10 rfl rfl rfl

/-- Helper: a filterMap whose function is an if-then-some-else-none is the
map of the function over the filtered list. -/
theorem filterMap_if_eq_map_filter {α β : Type} (c : α → Bool) (f : α → β)
    (l : List α) :
    (l.filterMap fun a => if c a then some (f a) else none) = (l.filter c).map f := by
  induction l with
  | nil => rfl
  | cons a l ih =>
    by_cases h : c a <;> simp [List.filterMap_cons, List.filter_cons, h, ih]

/-- Helper: a successful gather over mapped tasks means every task
succeeded, pointwise in order. -/
theorem gatherE_map_ok_forall2 {α β : Type} (f : α → Except PyErr β) (l : List α)
    (rs : List β) (h : gatherE (l.map f) = .ok rs) :
    List.Forall₂ (fun a r => f a = .ok r) l rs := by
  induction l generalizing rs with
  | nil =>
    simp [gatherE] at h
    subst h
    exact List.Forall₂.nil
  | cons a l ih =>
    rw [List.map_cons] at h
    cases hfa : f a with
    | error e => rw [hfa] at h; simp [gatherE] at h
    | ok b =>
      rw [hfa] at h
      cases hg : gatherE (l.map f) with
      | error e => simp [gatherE, hg] at h
      | ok rest =>
        simp [gatherE, hg] at h
        subst h
        exact List.Forall₂.cons hfa (ih rest hg)

/-- Helper: a successful table ingestion always produces the raw rendering
first, the unit elements in the middle and the summary element last. -/
theorem ingest_ok_shape (env : Env) (e : Element) (prev : Option Element)
    (r : List Element × List String)
    (h : semantic_ingest_table env e prev = .ok r) :
    ∃ units, r.1 = rawTableElem env e
        :: units ++ [semantic_summarize_table env e prev] := by
  obtain ⟨r1, r2⟩ := r
  unfold semantic_ingest_table at h
  cases hp : semantic_parse_table env e prev with
  | error er => rw [hp] at h; simp at h
  | ok ul =>
    obtain ⟨units, logs⟩ := ul
    rw [hp] at h
    simp only [Except.ok.injEq, Prod.mk.injEq] at h
    exact ⟨units, h.1.symm⟩

/-- C2 counterexample fixture: a table whose units reply "ur" decodes to
the one-string array `["u1"]`. -/
def envC2 : Env :=
  { baseEnv with
    jsonLoads := fun s => if s == "ur" then some (.jarr [.jstr "u1"]) else none,
    unitsReply := fun _ => "ur",
    summaryReply := fun _ => "sum",
    stripHtml := fun _ => "stripped" }

/-- Table fixture for C2. -/
def tblC2 : Element := mkTable "tt" { Metadata.default with text_as_html := "<h>" }

/-- Title fixture for C2, placed after the table. -/
def ttlC2 : Element := mkTitle "T" Metadata.default

/-- C2 counterexample: on the input `[Table, Title]`, the table stage emits
the pass-through Title first and the whole table expansion (raw rendering,
unit element, summary) after it, so the expansion is not spliced in at the
original position of the table, which precedes the Title. -/
theorem c2_counterexample_expansion_not_spliced :
    semantic_tables envC2 [tblC2, ttlC2]
      = .ok ([ttlC2,
              mkNarrativeText "stripped" tblC2.metadata,
              mkNarrativeText "List Item 1: u1" tblC2.metadata,
              mkNarrativeText "sum" tblC2.metadata], [])
    ∧ ([ttlC2,
        mkNarrativeText "stripped" tblC2.metadata,
        mkNarrativeText "List Item 1: u1" tblC2.metadata,
        mkNarrativeText "sum" tblC2.metadata] : List Element)
      ≠ [mkNarrativeText "stripped" tblC2.metadata,
         mkNarrativeText "List Item 1: u1" tblC2.metadata,
         mkNarrativeText "sum" tblC2.metadata,
         ttlC2] :=
  ⟨by rfl, by decide⟩

/-- C2 amended: whenever the table stage returns normally, its output is
the non-Table elements in their original relative order, followed by the
concatenated table expansions in table order; each expansion is the raw
rendering, then that table's unit elements in reply order, then the
summary element built with the anchor preceding the table in the original
sequence. (The claim's in-place splice at the table's original position
does not hold; the expansions are appended after all pass-through
elements.) -/
theorem c2_semantic_tables_appends_expansions (env : Env)
    (elements nodes : List Element) (logs : List String)
    (h : semantic_tables env elements = .ok (nodes, logs)) :
    ∃ results : List (List Element × List String),
      gatherE (tableTasks env elements) = .ok results
      ∧ nodes = (elements.filter fun e => !(e.kind == .table))
          ++ results.flatMap Prod.fst
      ∧ List.Forall₂
          (fun (p : Nat × Element) (r : List Element × List String) =>
            ∃ units, r.1 = rawTableElem env p.2
                :: units ++ [semantic_summarize_table env p.2 (tablePrev elements p.1)])
          (elements.enum.filter fun p => p.2.kind == .table) results := by
  unfold semantic_tables at h
  cases hg : gatherE (tableTasks env elements) with
  | error e => rw [hg] at h; simp at h
  | ok results =>
    rw [hg] at h
    simp only [Except.ok.injEq, Prod.mk.injEq] at h
    refine ⟨results, rfl, h.1.symm, ?_⟩
    have htasks : tableTasks env elements
        = ((elements.enum.filter fun p => p.2.kind == .table).map
            fun p => semantic_ingest_table env p.2 (tablePrev elements p.1)) := by
      unfold tableTasks
      exact filterMap_if_eq_map_filter _ _ _
    rw [htasks] at hg
    exact List.Forall₂.imp
      (fun a r har => ingest_ok_shape env a.2 (tablePrev elements a.1) r har)
      (gatherE_map_ok_forall2 _ _ _ hg)

/-- Witness for C2 at the concrete `[Table, Title]` input. -/
theorem c2_witness :
    ∃ results : List (List Element × List String),
      gatherE (tableTasks envC2 [tblC2, ttlC2]) = .ok results
      ∧ ([ttlC2,
          mkNarrativeText "stripped" tblC2.metadata,
          mkNarrativeText "List Item 1: u1" tblC2.metadata,
          mkNarrativeText "sum" tblC2.metadata] : List Element)
        = (([tblC2, ttlC2] : List Element).filter fun e => !(e.kind == .table))
            ++ results.flatMap Prod.fst
      ∧ List.Forall₂
          (fun (p : Nat × Element) (r : List Element × List String) =>
            ∃ units, r.1 = rawTableElem envC2 p.2
                :: units
                ++ [semantic_summarize_table envC2 p.2 (tablePrev [tblC2, ttlC2] p.1)])
          (([tblC2, ttlC2] : List Element).enum.filter fun p => p.2.kind == .table)
          results :=
  c2_semantic_tables_appends_expansions envC2 [tblC2, ttlC2]
    [ttlC2,
     mkNarrativeText "stripped" tblC2.metadata,
     mkNarrativeText "List Item 1: u1" tblC2.metadata,
     mkNarrativeText "sum" tblC2.metadata] [] (by rfl)

end SemanticDocumentParser
